import Mathlib

/-!
Shallow embedding of the trend-following bot (src/givemeajob.py).

Prices and floating-point quantities are modelled as exact rationals (ℚ).
Pandas NaN propagation is modelled with Option ℚ: an undefined (NaN) entry
is `none`, and a Python float comparison involving NaN, which is always
False, is modelled by `gtO`, which returns `false` when either side is
`none`.  External brokerage calls are modelled as oracle values passed in
explicitly (a latest-trade price is `Option ℚ`, `none` meaning the call
raised and the wrapper returned None).
-/

/-- Per-step gain at index `j` of the close series, from
`delta = close.diff(1)` and `gain = delta.where(delta > 0, 0)`
(lines 125-126).  The first delta is NaN and `where` replaces it with 0,
so `gainAt c 0 = 0`. -/
def gainAt (c : List ℚ) (j : ℕ) : ℚ :=
  if j = 0 then 0 else max (c.getD j 0 - c.getD (j - 1) 0) 0

/-- Per-step loss at index `j`, from `loss = -delta.where(delta < 0, 0)`
(line 127); again the NaN at index 0 becomes 0. -/
def lossAt (c : List ℚ) (j : ℕ) : ℚ :=
  if j = 0 then 0 else max (c.getD (j - 1) 0 - c.getD j 0) 0

/-- `gain.rolling(window=14, min_periods=14).mean()` at index `i`
(line 129): the mean of the 14 gains at indices `i-13 .. i`.  Only
meaningful when `13 ≤ i < c.length`; `rsiVal` guards that. -/
def avgGain (c : List ℚ) (i : ℕ) : ℚ :=
  (((List.range 14).map (fun k => gainAt c (i - 13 + k))).sum) / 14

/-- `loss.rolling(window=14, min_periods=14).mean()` at index `i`
(line 130). -/
def avgLoss (c : List ℚ) (i : ℕ) : ℚ :=
  (((List.range 14).map (fun k => lossAt c (i - 13 + k))).sum) / 14

/-- `avg_loss.replace(0, 0.000001)` (line 133): an exactly-zero average
loss is replaced by the epsilon 1e-6. -/
def avgLossEps (c : List ℚ) (i : ℕ) : ℚ :=
  if avgLoss c i = 0 then 1 / 1000000 else avgLoss c i

/-- The RSI column (lines 135-136): `rs = avg_gain / avg_loss`,
`rsi = 100 - 100/(1+rs)`.  Entry `i` is defined (non-NaN) exactly when
the rolling means are, i.e. when `13 ≤ i < c.length`. -/
def rsiVal (c : List ℚ) (i : ℕ) : Option ℚ :=
  if 13 ≤ i ∧ i < c.length then
    some (100 - 100 / (1 + avgGain c i / avgLossEps c i))
  else none

/-- `data['RSI'].rolling(window=10).mean()` (line 140): defined at `i`
exactly when all ten RSI entries `i-9 .. i` are defined, i.e. when
`22 ≤ i < c.length`; the guard makes the `getD 0` defaults unreachable. -/
def rsiMaVal (c : List ℚ) (i : ℕ) : Option ℚ :=
  if 22 ≤ i ∧ i < c.length then
    some ((((List.range 10).map (fun k => (rsiVal c (i - 9 + k)).getD 0)).sum) / 10)
  else none

/-- `data['close'].pct_change(5) * 100` (line 143): defined for
`5 ≤ i < c.length`.  A zero base price (pandas would give an infinity)
is modelled as undefined; no claim depends on that case. -/
def rocVal (c : List ℚ) (i : ℕ) : Option ℚ :=
  if 5 ≤ i ∧ i < c.length then
    if c.getD (i - 5) 0 = 0 then none
    else some ((c.getD i 0 / c.getD (i - 5) 0 - 1) * 100)
  else none

/-- The model of a pandas DataFrame as used by the bot: the close column
plus the three indicator columns `calculate_rsi` may add in place. -/
structure Frame where
  close : List ℚ
  RSI : Option (List (Option ℚ))
  RSI_MA : Option (List (Option ℚ))
  ROC : Option (List (Option ℚ))
deriving DecidableEq

/-- The RSI column materialised over the whole frame. -/
def rsiColumn (c : List ℚ) : List (Option ℚ) :=
  (List.range c.length).map (rsiVal c)

/-- The RSI moving-average column. -/
def rsiMaColumn (c : List ℚ) : List (Option ℚ) :=
  (List.range c.length).map (rsiMaVal c)

/-- The ROC column. -/
def rocColumn (c : List ℚ) : List (Option ℚ) :=
  (List.range c.length).map (rocVal c)

/-- The full observable effect of one call to `calculate_rsi`
(lines 118-156): the returned value, whether an external latest-price
call was made (line 145 always calls `get_latest_price` once the
indicator columns are computed), and the caller's frame after the call
(the column assignments on lines 139-143 mutate it in place). -/
structure RsiEffect where
  ret : Option Frame
  callsExternal : Bool
  frameAfter : Frame

/-- One call to `calculate_rsi(data, period=14)` with the external
latest-price oracle response `latestPrice` (lines 118-156).  With fewer
than 14 rows it returns None untouched (lines 121-123).  Otherwise it
adds the three indicator columns to the caller's frame (lines 139-143),
then calls `get_latest_price` (line 145); if that returned None, the
`f"{latest_price:.2f}"` in the log statement raises TypeError, which the
enclosing except swallows, returning None (lines 146-156) — but the
frame keeps its new columns. -/
def calcRsiEffect (f : Frame) (latestPrice : Option ℚ) : RsiEffect :=
  if f.close.length < 14 then ⟨none, false, f⟩
  else
    let f2 : Frame :=
      { f with RSI := some (rsiColumn f.close),
               RSI_MA := some (rsiMaColumn f.close),
               ROC := some (rocColumn f.close) }
    match latestPrice with
    | none => ⟨none, true, f2⟩
    | some _ => ⟨some f2, true, f2⟩

/-- Python float comparison `a > b` under NaN semantics: False whenever
either operand is NaN. -/
def gtO : Option ℚ → Option ℚ → Bool
  | some a, some b => decide (b < a)
  | _, _ => false

/-- `check_entry_signal(data, rsi_threshold=50)` (lines 158-194).
`data = None` and a None result from `calculate_rsi` both give False;
otherwise the four conditions of lines 175-181 are ANDed, each a float
comparison that is False on NaN operands. -/
def check_entry_signal (data : Option (List ℚ)) (latestPrice : Option ℚ)
    (threshold : ℚ) : Bool :=
  match data with
  | none => false
  | some c =>
    if c.length < 14 then false
    else
      match latestPrice with
      | none => false
      | some _ =>
        gtO (rsiVal c (c.length - 1)) (some threshold) &&
        gtO (rsiVal c (c.length - 1)) (rsiMaVal c (c.length - 1)) &&
        gtO (rsiVal c (c.length - 1)) (rsiVal c (c.length - 2)) &&
        gtO (rocVal c (c.length - 1)) (some 0)

/-- The number of rows at which the RSI value is defined. -/
def definedRsiRows (c : List ℚ) : ℕ :=
  ((List.range c.length).filter (fun i => (rsiVal c i).isSome)).length

/-- The number of rows at which all three indicator values (RSI, RSI_MA,
ROC) are defined. -/
def definedIndicatorRows (c : List ℚ) : ℕ :=
  ((List.range c.length).filter
    (fun i => (rsiVal c i).isSome && (rsiMaVal c i).isSome
              && (rocVal c i).isSome)).length

/-- Python `int()` applied to a rational: truncation toward zero, as in
`int(max_position_value / current_price)` (line 220). -/
def ratTrunc (q : ℚ) : ℤ :=
  if q < 0 then -⌊-q⌋ else ⌊q⌋

/-- `calculate_position_size(symbol)` (lines 207-231), with the two
external fetches passed as oracles: `buyingPower = none` models
`get_account` raising (the enclosing except returns 1), and
`price = none` models an unavailable latest price.  A price of exactly 0
fails the falsiness check `if not current_price` (line 214) just like
None.  Otherwise the size is `max(1, int(buyingPower * 0.05 / price))`
(lines 219-228). -/
def calculate_position_size (buyingPower price : Option ℚ) : ℤ :=
  match buyingPower with
  | none => 1
  | some b =>
    match price with
    | none => 1
    | some p =>
      if p = 0 then 1
      else max 1 (ratTrunc (b * (5 / 100) / p))

/-- Brokerage order status as inspected by `wait_for_order_fill`
(lines 242-244): `filled`, the three terminal failures, and `other` for
any still-pending status. -/
inductive Status where
  | filled
  | canceled
  | expired
  | rejected
  | other
deriving DecidableEq

/-- A response to `get_order`: the status and, if present, the average
fill price (`filled_avg_price` may be absent, in which case the
`float(...)` on line 289 raises). -/
structure OrderView where
  status : Status
  filled_avg_price : Option ℚ
deriving DecidableEq

/-- Statuses on which the poll loop returns None (line 244). -/
def isTerminal : Status → Bool
  | Status.canceled => true
  | Status.expired => true
  | Status.rejected => true
  | _ => false

/-- The poll loop body of `wait_for_order_fill` (lines 239-251) in
discrete time: one fuel unit is one 1-second poll interval, `e` is the
elapsed seconds.  `trace e = none` models `get_order` raising at poll
`e` (the except on line 248 returns None); a filled status returns the
order; a terminal status returns None; otherwise sleep 1s and loop.
Fuel 0 is the `while` guard failing: timeout, return None (line 253). -/
def waitGo (trace : ℕ → Option OrderView) : ℕ → ℕ → Option OrderView
  | _, 0 => none
  | e, Nat.succ fuel =>
    match trace e with
    | none => none
    | some ov =>
      if ov.status = Status.filled then some ov
      else if isTerminal ov.status then none
      else waitGo trace (e + 1) fuel

/-- `wait_for_order_fill(order_id, timeout)` (lines 233-253): polls the
status trace from second 0 with `timeout` polls available. -/
def wait_for_order_fill (trace : ℕ → Option OrderView) (timeout : ℕ) :
    Option OrderView :=
  waitGo trace 0 timeout

/-- An order status is still pending when it is neither filled nor
terminal, so the poll loop keeps waiting on it. -/
def isPending (ov : OrderView) : Prop :=
  ov.status ≠ Status.filled ∧ isTerminal ov.status = false

/-- One order submission, as recorded for inspection: side, type,
quantity and (for a trailing stop) the trail percent. -/
structure SubOrder where
  isBuy : Bool
  isTrailingStop : Bool
  qty : ℤ
  trailPercent : Option ℚ
deriving DecidableEq

/-- A record of `self.active_positions[symbol]` (lines 314-319). -/
structure PosRec where
  qty : ℤ
  entry_price : ℚ
  entry_time : ℤ
  stop_percent : ℚ
deriving DecidableEq

/-- The external world an entry attempt observes: the brokerage position
quantity reported by `check_position` (0 on any failure, lines 196-205),
the account buying power (None models `get_account` raising inside
`calculate_position_size`), the latest-trade price oracle, the order
status trace polled by `wait_for_order_fill`, whether the trailing-stop
submission call succeeds, and the current market time. -/
structure World where
  positionQty : ℚ
  buyingPower : Option ℚ
  price : Option ℚ
  trace : ℕ → Option OrderView
  stopSubmitOk : Bool
  currentTime : ℤ

/-- `place_trailing_stop_order(symbol, qty)` (lines 255-325) as a
function of the observed world.  Returns the result (None on every
failure path), the list of orders actually submitted, and the
tracked-positions map after the call.  Control flow mirrors the source:
abort on an existing position (lines 259-262); recompute `qty` via the
Position Sizer (line 265, superseding the parameter); abort on a falsy
price (lines 266-270); submit the market buy (lines 273-279); wait for
the fill (line 284), aborting on None (lines 285-287); `float` of an
absent `filled_avg_price` raises, caught by the outer except (line 289);
submit the trailing stop (lines 293-300; a raise there is caught with
the entry already submitted); record the position (lines 314-319). -/
def place_trailing_stop_order (w : World) (trailStopPercent : ℚ)
    (timeout : ℕ) (positions : String → Option PosRec) (symbol : String) :
    Option (OrderView × SubOrder) × List SubOrder × (String → Option PosRec) :=
  if 0 < w.positionQty then (none, [], positions)
  else
    let qty := calculate_position_size w.buyingPower w.price
    match w.price with
    | none => (none, [], positions)
    | some p =>
      if p = 0 then (none, [], positions)
      else
        let entry : SubOrder := ⟨true, false, qty, none⟩
        match wait_for_order_fill w.trace timeout with
        | none => (none, [entry], positions)
        | some ov =>
          match ov.filled_avg_price with
          | none => (none, [entry], positions)
          | some fp =>
            if w.stopSubmitOk = false then (none, [entry], positions)
            else
              let stop : SubOrder := ⟨false, true, qty, some (trailStopPercent * 100)⟩
              let posRec : PosRec := ⟨qty, fp, w.currentTime, trailStopPercent⟩
              (some (ov, stop), [entry, stop],
               fun s => if s = symbol then some posRec else positions s)

/-- What one iteration of the `run_strategy` loop body observes
(lines 339-396): the market clock, the true number of seconds until the
next open, the fetched historical closes (None models a fetch failure),
the latest-price oracle used inside `calculate_rsi`, the world used for
the latest-price check and any entry attempt, and the current
tracked-positions map. -/
structure IterEnv where
  clockOpen : Bool
  secondsToNextOpen : ℕ
  histData : Option (List ℚ)
  rsiPriceOracle : Option ℚ
  world : World
  positions : String → Option PosRec

/-- The observable outcome of one loop iteration: the sleep duration
chosen, the orders submitted, and the tracked-positions map after the
iteration. -/
structure IterResult where
  sleep : ℕ
  orders : List SubOrder
  positions : String → Option PosRec

/-- One iteration of the `run_strategy` loop body (lines 339-396).
Market closed (lines 345-351): the code sleeps
`min(check_interval, (next_open - current_time).seconds)`, and
`timedelta.seconds` is the seconds component, i.e. the total remaining
seconds modulo 86400 — not the total.  No or short data (lines 354-358):
sleep 300.  Falsy latest price (lines 361-365): sleep 60.  With no
brokerage position and a true entry signal, `place_trailing_stop_order`
runs (lines 370-374); otherwise the iteration only reports and sleeps
`check_interval` (lines 395-396). -/
def run_strategy_iteration (env : IterEnv) (symbol : String)
    (check_interval : ℕ) (trailStopPercent : ℚ) (timeout : ℕ) : IterResult :=
  if env.clockOpen = false then
    ⟨min check_interval (env.secondsToNextOpen % 86400), [], env.positions⟩
  else
    match env.histData with
    | none => ⟨300, [], env.positions⟩
    | some closes =>
      if closes.length < 20 then ⟨300, [], env.positions⟩
      else
        match env.world.price with
        | none => ⟨60, [], env.positions⟩
        | some cp =>
          if cp = 0 then ⟨60, [], env.positions⟩
          else
            if env.world.positionQty = 0 then
              if check_entry_signal (some closes) env.rsiPriceOracle 50 then
                let r := place_trailing_stop_order env.world trailStopPercent
                  timeout env.positions symbol
                ⟨check_interval, r.2.1, r.2.2⟩
              else ⟨check_interval, [], env.positions⟩
            else ⟨check_interval, [], env.positions⟩

/-! ## Concrete inputs used by counterexamples and witnesses -/

/-- A flat close series of exactly `period = 14` bars. -/
def c1flat : List ℚ :=
  [100, 100, 100, 100, 100, 100, 100, 100, 100, 100, 100, 100, 100, 100]

/-- A flat series of `period + 1 = 15` bars, as in the claim's premise. -/
def c9closes : List ℚ :=
  [100, 100, 100, 100, 100, 100, 100, 100, 100, 100, 100, 100, 100, 100, 100]

/-- 23 closes rising one point per day except two one-point dips at
indices 8 and 9.  Only the last row (index 22) has all three indicator
values defined, because RSI_MA needs ten defined RSI rows. -/
def c8closes : List ℚ :=
  [100, 101, 102, 103, 104, 105, 106, 107, 106, 105, 106, 107, 108, 109,
   110, 111, 112, 113, 114, 115, 116, 117, 118]

/-- A status trace that is pending for two polls and fills at second 2
with average price 120.50. -/
def traceFill : ℕ → Option OrderView := fun n =>
  if n = 2 then some ⟨Status.filled, some (241 / 2)⟩
  else some ⟨Status.other, none⟩

/-- A world whose order polls stay pending forever. -/
def worldPend : World :=
  ⟨0, some 10000, some 120, fun _ => some ⟨Status.other, none⟩, true, 0⟩

set_option maxRecDepth 8000

/-! ## Helper lemmas -/

theorem gainAt_nonneg (c : List ℚ) (j : ℕ) : 0 ≤ gainAt c j := by
  unfold gainAt
  split
  · exact le_refl 0
  · exact le_max_right _ _

theorem lossAt_nonneg (c : List ℚ) (j : ℕ) : 0 ≤ lossAt c j := by
  unfold lossAt
  split
  · exact le_refl 0
  · exact le_max_right _ _

theorem avgGain_nonneg (c : List ℚ) (i : ℕ) : 0 ≤ avgGain c i := by
  unfold avgGain
  apply div_nonneg _ (by norm_num)
  apply List.sum_nonneg
  intro x hx
  simp only [List.mem_map, List.mem_range] at hx
  obtain ⟨k, hk, rfl⟩ := hx
  exact gainAt_nonneg c _

theorem avgLoss_nonneg (c : List ℚ) (i : ℕ) : 0 ≤ avgLoss c i := by
  unfold avgLoss
  apply div_nonneg _ (by norm_num)
  apply List.sum_nonneg
  intro x hx
  simp only [List.mem_map, List.mem_range] at hx
  obtain ⟨k, hk, rfl⟩ := hx
  exact lossAt_nonneg c _

theorem avgLossEps_pos (c : List ℚ) (i : ℕ) : 0 < avgLossEps c i := by
  unfold avgLossEps
  split
  · norm_num
  · rename_i h
    rcases lt_or_eq_of_le (avgLoss_nonneg c i) with h1 | h1
    · exact h1
    · exact absurd h1.symm h

theorem rsiVal_eq_none_of_lt13 (c : List ℚ) (i : ℕ) (h : i < 13) :
    rsiVal c i = none := by
  unfold rsiVal
  rw [if_neg]
  intro hc
  omega

theorem rsiVal_eq_none_of_ge_length (c : List ℚ) (i : ℕ) (h : c.length ≤ i) :
    rsiVal c i = none := by
  unfold rsiVal
  rw [if_neg]
  intro hc
  omega

theorem gtO_none_right (x : Option ℚ) : gtO x none = false := by
  cases x <;> rfl

theorem ratTrunc_mono {x y : ℚ} (h : x ≤ y) : ratTrunc x ≤ ratTrunc y := by
  unfold ratTrunc
  rcases lt_or_le x 0 with hx | hx
  · rw [if_pos hx]
    rcases lt_or_le y 0 with hy | hy
    · rw [if_pos hy]
      have := Int.floor_le_floor (neg_le_neg h)
      omega
    · rw [if_neg (not_lt.mpr hy)]
      have h1 : 0 ≤ ⌊-x⌋ := Int.floor_nonneg.mpr (by linarith)
      have h2 : 0 ≤ ⌊y⌋ := Int.floor_nonneg.mpr hy
      omega
  · rw [if_neg (not_lt.mpr hx), if_neg (not_lt.mpr (le_trans hx h))]
    exact Int.floor_le_floor h

theorem max_one_ratTrunc (q : ℚ) : max 1 (ratTrunc q) = max 1 ⌊q⌋ := by
  unfold ratTrunc
  rcases lt_or_le q 0 with hq | hq
  · rw [if_pos hq]
    have h1 : 0 ≤ ⌊-q⌋ := Int.floor_nonneg.mpr (by linarith)
    have h2 : ⌊q⌋ ≤ 0 := Int.floor_nonpos (le_of_lt hq)
    rw [max_eq_left (by omega), max_eq_left (by omega)]
  · rw [if_neg (not_lt.mpr hq)]

/-! ## C4: no re-entry while a position exists -/

/-- C4: while the brokerage reports a position quantity greater than zero,
`place_trailing_stop_order` submits no order of any kind, leaves the
tracked-positions map unchanged, and returns the null no-op result. -/
theorem c4_no_reentry (w : World) (trail : ℚ) (timeout : ℕ)
    (ps : String → Option PosRec) (sym : String) (h : 0 < w.positionQty) :
    place_trailing_stop_order w trail timeout ps sym = (none, [], ps) := by
  unfold place_trailing_stop_order
  rw [if_pos h]

/-- Witness for C4: a world holding 1 share refuses the entry. -/
theorem c4_no_reentry_witness :
    place_trailing_stop_order ⟨1, none, none, fun _ => none, true, 0⟩ (5 / 100) 60
      (fun _ => none) "TSLA" = (none, [], fun _ => none) :=
  c4_no_reentry ⟨1, none, none, fun _ => none, true, 0⟩ (5 / 100) 60
    (fun _ => none) "TSLA" (by norm_num)

/-! ## C6: position size formula -/

/-- C6: for buying power `b` and an available price `p > 0`,
`calculate_position_size` returns exactly `max 1 ⌊b * 0.05 / p⌋`; with an
unavailable price it returns exactly 1. -/
theorem c6_position_size :
    (∀ (b p : ℚ), 0 < p →
      calculate_position_size (some b) (some p) = max 1 ⌊b * (5 / 100) / p⌋) ∧
    (∀ bp : Option ℚ, calculate_position_size bp none = 1) := by
  constructor
  · intro b p hp
    simp only [calculate_position_size]
    rw [if_neg (ne_of_gt hp)]
    exact max_one_ratTrunc _
  · intro bp
    cases bp <;> rfl

/-- Witness for C6: buying power 10000 at price 120 gives
`max 1 ⌊500/120⌋ = 4` shares, and an unavailable price gives 1. -/
theorem c6_position_size_witness :
    calculate_position_size (some 10000) (some 120) = max 1 ⌊(10000 : ℚ) * (5 / 100) / 120⌋ ∧
    calculate_position_size (some 10000) none = 1 :=
  ⟨c6_position_size.1 10000 120 (by norm_num), c6_position_size.2 (some 10000)⟩

/-! ## C7: position sizer monotonicity -/

/-- C7: for any fixed nonnegative (market) price, a larger buying power
never yields a smaller share quantity, and every result is at least 1. -/
theorem c7_position_size_monotone :
    (∀ (p : ℚ), 0 ≤ p → ∀ (b b' : ℚ), b ≤ b' →
      calculate_position_size (some b) (some p) ≤
        calculate_position_size (some b') (some p)) ∧
    (∀ bp price : Option ℚ, 1 ≤ calculate_position_size bp price) := by
  constructor
  · intro p hp b b' hb
    simp only [calculate_position_size]
    by_cases h0 : p = 0
    · rw [if_pos h0, if_pos h0]
    · rw [if_neg h0, if_neg h0]
      have hppos : 0 < p := lt_of_le_of_ne hp (Ne.symm h0)
      have hmul : b * (5 / 100) ≤ b' * (5 / 100) :=
        mul_le_mul_of_nonneg_right hb (by norm_num)
      have hdiv : b * (5 / 100) / p ≤ b' * (5 / 100) / p :=
        div_le_div_of_nonneg_right hmul hp
      exact max_le_max (le_refl 1) (ratTrunc_mono hdiv)
  · intro bp price
    cases bp with
    | none => exact le_refl 1
    | some b =>
      cases price with
      | none => exact le_refl 1
      | some p =>
        simp only [calculate_position_size]
        by_cases h0 : p = 0
        · rw [if_pos h0]
        · rw [if_neg h0]
          exact le_max_left 1 _

/-- Witness for C7: at price 120, buying power 10000 versus 20000, and a
concrete instance of the floor at 1. -/
theorem c7_position_size_monotone_witness :
    calculate_position_size (some 10000) (some 120) ≤
      calculate_position_size (some 20000) (some 120) ∧
    1 ≤ calculate_position_size (some 10000) (some 120) :=
  ⟨c7_position_size_monotone.1 120 (by norm_num) 10000 20000 (by norm_num),
   c7_position_size_monotone.2 (some 10000) (some 120)⟩

/-! ## C10: a zero latest price is falsy, treated as unavailable -/

/-- C10: a latest price of exactly 0 fails every `if not current_price`
falsiness check just as an absent price does: the Position Sizer returns
the default 1 (and behaves identically to the unavailable case), the
Order Lifecycle Manager aborts with the null result, no orders and an
unchanged map (identically to the unavailable case), and the Strategy
Loop abandons the iteration with the 60-second backoff (identically to
the unavailable case). -/
theorem c10_zero_price_unavailable :
    (∀ bp : Option ℚ, calculate_position_size bp (some 0) = 1 ∧
      calculate_position_size bp (some 0) = calculate_position_size bp none) ∧
    (∀ (w : World) (trail : ℚ) (timeout : ℕ) (ps : String → Option PosRec)
      (sym : String),
      place_trailing_stop_order { w with price := some 0 } trail timeout ps sym
        = (none, [], ps) ∧
      place_trailing_stop_order { w with price := some 0 } trail timeout ps sym
        = place_trailing_stop_order { w with price := none } trail timeout ps sym) ∧
    (∀ (env : IterEnv) (sym : String) (ci : ℕ) (trail : ℚ) (timeout : ℕ)
      (closes : List ℚ),
      env.clockOpen = true → env.histData = some closes → 20 ≤ closes.length →
      run_strategy_iteration
          { env with world := { env.world with price := some 0 } }
          sym ci trail timeout = ⟨60, [], env.positions⟩ ∧
      run_strategy_iteration
          { env with world := { env.world with price := some 0 } }
          sym ci trail timeout =
        run_strategy_iteration
          { env with world := { env.world with price := none } }
          sym ci trail timeout) := by
  refine ⟨?_, ?_, ?_⟩
  · intro bp
    cases bp <;> exact ⟨rfl, rfl⟩
  · intro w trail timeout ps sym
    constructor
    · unfold place_trailing_stop_order
      by_cases h : 0 < w.positionQty
      · rw [if_pos h]
      · rw [if_neg h]
        simp
    · unfold place_trailing_stop_order
      by_cases h : 0 < w.positionQty
      · rw [if_pos h, if_pos h]
      · rw [if_neg h, if_neg h]
        simp [calculate_position_size]
  · intro env sym ci trail timeout closes hopen hdata hlen
    constructor
    · unfold run_strategy_iteration
      rw [hopen, hdata]
      simp [Nat.not_lt.mpr hlen]
    · unfold run_strategy_iteration
      rw [hopen, hdata]
      simp [Nat.not_lt.mpr hlen]

/-- Witness for C10: a concrete open-market environment with a zero
latest price backs off for 60 seconds without trading. -/
theorem c10_zero_price_unavailable_witness :
    calculate_position_size (some 10000) (some 0) = 1 ∧
    run_strategy_iteration
        ⟨true, 0, some (List.replicate 20 100), some 1,
         ⟨0, some 10000, some 0, fun _ => none, true, 0⟩, fun _ => none⟩
        "TSLA" 300 (5 / 100) 60 = ⟨60, [], fun _ => none⟩ :=
  ⟨(c10_zero_price_unavailable.1 (some 10000)).1,
   (c10_zero_price_unavailable.2.2
      ⟨true, 0, some (List.replicate 20 100), some 1,
       ⟨0, some 10000, some 0, fun _ => none, true, 0⟩, fun _ => none⟩
      "TSLA" 300 (5 / 100) 60 (List.replicate 20 100) rfl rfl
      (by simp)).1⟩

/-! ## C2: market-closed sleep -/

/-- C2 (amended): when the clock reports closed, the loop sleeps for the
lesser of `check_interval` and the seconds component of the remaining
time until next open — the remaining seconds modulo 86400, because the
code reads `timedelta.seconds`, not `total_seconds()` — and takes no
trading action, leaving the positions map unchanged. -/
theorem c2_closed_sleep (env : IterEnv) (sym : String) (ci : ℕ) (trail : ℚ)
    (timeout : ℕ) (h : env.clockOpen = false) :
    run_strategy_iteration env sym ci trail timeout =
      ⟨min ci (env.secondsToNextOpen % 86400), [], env.positions⟩ := by
  unfold run_strategy_iteration
  rw [h]
  simp

/-- Witness for C2: clock closed, next open 3600 seconds away and
check interval 300 gives a 300-second sleep, as the spec's concrete
scenario requires, with no orders submitted. -/
theorem c2_closed_sleep_witness :
    run_strategy_iteration
        ⟨false, 3600, none, none, ⟨0, none, none, fun _ => none, true, 0⟩,
         fun _ => none⟩ "TSLA" 300 (5 / 100) 60
      = ⟨300, [], fun _ => none⟩ := by
  have h := c2_closed_sleep
    ⟨false, 3600, none, none, ⟨0, none, none, fun _ => none, true, 0⟩,
     fun _ => none⟩ "TSLA" 300 (5 / 100) 60 rfl
  simpa using h

/-- Counterexample for C2 as stated: with the next open 86500 seconds
away (one day plus 100 seconds, e.g. across a weekend) and a 300-second
check interval, the code sleeps `min 300 (86500 % 86400) = 100` seconds,
not the claimed `min 300 86500 = 300`. -/
theorem c2_closed_sleep_counterexample :
    (run_strategy_iteration
        ⟨false, 86500, none, none, ⟨0, none, none, fun _ => none, true, 0⟩,
         fun _ => none⟩ "TSLA" 300 (5 / 100) 60).sleep = 100 ∧
    ¬ ((run_strategy_iteration
        ⟨false, 86500, none, none, ⟨0, none, none, fun _ => none, true, 0⟩,
         fun _ => none⟩ "TSLA" 300 (5 / 100) 60).sleep
      = min 300 86500) := by
  constructor
  · rfl
  · intro hcontra
    rw [show (run_strategy_iteration
        ⟨false, 86500, none, none, ⟨0, none, none, fun _ => none, true, 0⟩,
         fun _ => none⟩ "TSLA" 300 (5 / 100) 60).sleep = 100 from rfl] at hcontra
    omega

/-! ## C1: RSI on a flat price series -/

/-- On the flat 14-bar series the single defined RSI entry evaluates to
exactly 0: all gains and losses are 0, the epsilon substitution makes the
average loss 1e-6, so `rs = 0` and `rsi = 100 - 100/(1+0) = 0`. -/
theorem c1flat_eval : rsiVal c1flat 13 = some 0 := by
  norm_num [rsiVal, c1flat, avgGain, avgLoss, avgLossEps, gainAt, lossAt,
    List.range_succ]

/-- Counterexample for C1 as stated: on the flat 14-bar series (every
per-step delta 0) the defined RSI entry is exactly 0, not the claimed
100. -/
theorem c1_flat_rsi_counterexample :
    rsiVal c1flat 13 = some 0 ∧ rsiVal c1flat 13 ≠ some 100 := by
  refine ⟨c1flat_eval, ?_⟩
  rw [c1flat_eval]
  intro h
  have := Option.some.inj h
  norm_num at this

/-- C1 (amended): for every flat closing-price series of length at least
`period = 14`, every defined RSI entry resolves to exactly 0: the average
gain is 0 and the epsilon substitution (average loss replaced by 1e-6)
prevents division by zero, giving `rs = 0` and `rsi = 100 - 100/1 = 0`. -/
theorem c1_flat_rsi_zero (c : List ℚ) (_h14 : 14 ≤ c.length)
    (hflat : ∀ j, j + 1 < c.length → c.getD (j + 1) 0 = c.getD j 0) :
    ∀ i v, rsiVal c i = some v → v = 0 := by
  intro i v hv
  unfold rsiVal at hv
  by_cases hg : 13 ≤ i ∧ i < c.length
  · rw [if_pos hg] at hv
    have hstep : ∀ j, j < c.length → gainAt c j = 0 ∧ lossAt c j = 0 := by
      intro j hj
      by_cases h0 : j = 0
      · subst h0
        exact ⟨rfl, rfl⟩
      · have h1 : (j - 1) + 1 = j := by omega
        have h2 : c.getD j 0 = c.getD (j - 1) 0 := by
          have := hflat (j - 1) (by omega)
          rw [h1] at this
          exact this
        constructor
        · unfold gainAt
          rw [if_neg h0, h2]
          simp
        · unfold lossAt
          rw [if_neg h0, h2]
          simp
    have hwin : ∀ k, k < 14 → i - 13 + k < c.length := by
      intro k hk
      omega
    have hgain : avgGain c i = 0 := by
      unfold avgGain
      rw [List.sum_eq_zero]
      · norm_num
      · intro x hx
        simp only [List.mem_map, List.mem_range] at hx
        obtain ⟨k, hk, rfl⟩ := hx
        exact (hstep _ (hwin k hk)).1
    have hloss : avgLoss c i = 0 := by
      unfold avgLoss
      rw [List.sum_eq_zero]
      · norm_num
      · intro x hx
        simp only [List.mem_map, List.mem_range] at hx
        obtain ⟨k, hk, rfl⟩ := hx
        exact (hstep _ (hwin k hk)).2
    have heps : avgLossEps c i = 1 / 1000000 := by
      unfold avgLossEps
      rw [if_pos hloss]
    have hval := Option.some.inj hv
    rw [hgain, heps] at hval
    rw [← hval]
    norm_num
  · rw [if_neg hg] at hv
    exact absurd hv (by simp)

/-- Witness for C1 (amended): the flat 14-bar series satisfies the
hypotheses and its defined RSI entry is 0. -/
theorem c1_flat_rsi_zero_witness :
    14 ≤ c1flat.length ∧ (rsiVal c1flat 13).getD 1 = 0 := by
  refine ⟨by norm_num [c1flat], ?_⟩
  rw [c1flat_eval]
  exact c1_flat_rsi_zero c1flat (by norm_num [c1flat])
    (by intro j hj
        norm_num [c1flat] at hj
        have hj13 : j < 13 := by omega
        interval_cases j <;> rfl)
    13 0 c1flat_eval

/-! ## C9: RSI range and warm-up definedness -/

/-- Counterexample for C9 as stated: in a 15-bar series the RSI entry at
index 13 has only 13 prior bars — fewer than `period = 14` — yet it is
defined, not undefined/null. -/
theorem c9_warmup_counterexample :
    rsiVal c9closes 13 ≠ none ∧ 13 < 14 := by
  constructor
  · unfold rsiVal
    rw [if_pos (by norm_num [c9closes])]
    simp
  · norm_num

/-- C9 (amended): every defined RSI value lies in [0, 100] (the average
gain is nonnegative and the epsilon-substituted average loss is strictly
positive, so `rs ≥ 0` and `100/(1+rs)` is in (0, 100]), and entries with
fewer than `period - 1 = 13` prior bars — as well as out-of-range
indices — are undefined/null, not zero. -/
theorem c9_rsi_range :
    (∀ (c : List ℚ) (i : ℕ) (v : ℚ), rsiVal c i = some v → 0 ≤ v ∧ v ≤ 100) ∧
    (∀ (c : List ℚ) (i : ℕ), i < 13 → rsiVal c i = none) ∧
    (∀ (c : List ℚ) (i : ℕ), c.length ≤ i → rsiVal c i = none) := by
  refine ⟨?_, rsiVal_eq_none_of_lt13, rsiVal_eq_none_of_ge_length⟩
  intro c i v hv
  unfold rsiVal at hv
  by_cases hg : 13 ≤ i ∧ i < c.length
  · rw [if_pos hg] at hv
    have hval := Option.some.inj hv
    have hrs : 0 ≤ avgGain c i / avgLossEps c i :=
      div_nonneg (avgGain_nonneg c i) (le_of_lt (avgLossEps_pos c i))
    have h1 : (1 : ℚ) ≤ 1 + avgGain c i / avgLossEps c i := by linarith
    have h2 : 0 < 100 / (1 + avgGain c i / avgLossEps c i) := by positivity
    have h3 : 100 / (1 + avgGain c i / avgLossEps c i) ≤ 100 :=
      div_le_self (by norm_num) h1
    rw [← hval]
    constructor
    · linarith
    · linarith
  · rw [if_neg hg] at hv
    exact absurd hv (by simp)

/-- Witness for C9 (amended): the flat series gives a defined value 0,
inside [0, 100], and indices 2 and 20 are undefined in `c1flat`. -/
theorem c9_rsi_range_witness :
    ((0 : ℚ) ≤ 0 ∧ (0 : ℚ) ≤ 100) ∧ rsiVal c1flat 2 = none ∧
      rsiVal c1flat 20 = none :=
  ⟨c9_rsi_range.1 c1flat 13 0 c1flat_eval,
   c9_rsi_range.2.1 c1flat 2 (by norm_num),
   c9_rsi_range.2.2 c1flat 20 (by norm_num [c1flat])⟩

/-! ## C5: effects of calculate_rsi -/

/-- Counterexample for C5 as stated: on a 14-bar input `calculate_rsi`
performs an external latest-price call, mutates the caller's frame by
adding the three indicator columns, and its return value differs between
two runs on equal inputs when the external call's outcome differs — so
it is not a pure, side-effect-free function of the bar sequence and
configuration. -/
theorem c5_rsi_effects_counterexample :
    (calcRsiEffect ⟨c1flat, none, none, none⟩ (some 1)).callsExternal = true ∧
    (calcRsiEffect ⟨c1flat, none, none, none⟩ (some 1)).frameAfter
      ≠ ⟨c1flat, none, none, none⟩ ∧
    (calcRsiEffect ⟨c1flat, none, none, none⟩ (some 1)).ret
      ≠ (calcRsiEffect ⟨c1flat, none, none, none⟩ none).ret := by
  have hlen : ¬ (Frame.close ⟨c1flat, none, none, none⟩).length < 14 := by
    norm_num [c1flat]
  refine ⟨?_, ?_, ?_⟩
  · unfold calcRsiEffect
    rw [if_neg hlen]
  · unfold calcRsiEffect
    rw [if_neg hlen]
    simp
  · unfold calcRsiEffect
    rw [if_neg hlen, if_neg hlen]
    simp

/-- C5 (amended): the indicator computation is deterministic — two runs
on equal input frames whose external latest-price calls agree on success
produce equal effects — but `calculate_rsi` is not free of side effects:
whenever the input has at least `period = 14` rows it makes the external
latest-price call and overwrites the caller's RSI, RSI_MA and ROC
columns in place, and its return value is None exactly when the frame is
short or the external price call fails. -/
theorem c5_rsi_effects :
    (∀ (f : Frame) (p q : Option ℚ), p.isSome = q.isSome →
      calcRsiEffect f p = calcRsiEffect f q) ∧
    (∀ (f : Frame) (p : Option ℚ), 14 ≤ f.close.length →
      (calcRsiEffect f p).callsExternal = true ∧
      (calcRsiEffect f p).frameAfter =
        { f with RSI := some (rsiColumn f.close),
                 RSI_MA := some (rsiMaColumn f.close),
                 ROC := some (rocColumn f.close) }) ∧
    (∀ (f : Frame) (p : Option ℚ), f.close.length < 14 →
      calcRsiEffect f p = ⟨none, false, f⟩) ∧
    (∀ (f : Frame), (calcRsiEffect f none).ret = none) := by
  refine ⟨?_, ?_, ?_, ?_⟩
  · intro f p q hpq
    cases p <;> cases q <;> simp at hpq <;> rfl
  · intro f p hlen
    have h : ¬ f.close.length < 14 := by omega
    unfold calcRsiEffect
    rw [if_neg h]
    cases p <;> exact ⟨rfl, rfl⟩
  · intro f p hlen
    unfold calcRsiEffect
    rw [if_pos hlen]
  · intro f
    unfold calcRsiEffect
    by_cases h : f.close.length < 14
    · rw [if_pos h]
    · rw [if_neg h]

/-- Witness for C5 (amended): determinism between two successful-price
runs, and the concrete effect facts on the 14-bar flat input. -/
theorem c5_rsi_effects_witness :
    calcRsiEffect ⟨c1flat, none, none, none⟩ (some 1)
      = calcRsiEffect ⟨c1flat, none, none, none⟩ (some 2) ∧
    (calcRsiEffect ⟨c1flat, none, none, none⟩ (some 1)).callsExternal = true ∧
    (calcRsiEffect ⟨[1, 2], none, none, none⟩ (some 1)).ret = none ∧
    (calcRsiEffect ⟨c1flat, none, none, none⟩ none).ret = none :=
  ⟨c5_rsi_effects.1 ⟨c1flat, none, none, none⟩ (some 1) (some 2) rfl,
   (c5_rsi_effects.2.1 ⟨c1flat, none, none, none⟩ (some 1)
      (by norm_num [c1flat])).1,
   by rw [c5_rsi_effects.2.2.1 ⟨[1, 2], none, none, none⟩ (some 1) (by norm_num)],
   c5_rsi_effects.2.2.2 ⟨c1flat, none, none, none⟩⟩

/-! ## C3: order-fill wait protocol -/

theorem waitGo_succ (trace : ℕ → Option OrderView) (e fuel : ℕ) :
    waitGo trace e (fuel + 1) =
      match trace e with
      | none => none
      | some ov =>
        if ov.status = Status.filled then some ov
        else if isTerminal ov.status then none
        else waitGo trace (e + 1) fuel := rfl

theorem waitGo_succ_pending (trace : ℕ → Option OrderView) (e fuel : ℕ)
    (ov : OrderView) (h1 : trace e = some ov) (h2 : isPending ov) :
    waitGo trace e (fuel + 1) = waitGo trace (e + 1) fuel := by
  rw [waitGo_succ, h1]
  simp [h2.1, h2.2]

theorem waitGo_first_filled (t : ℕ) : ∀ (trace : ℕ → Option OrderView)
    (e fuel : ℕ), t < fuel →
    (∀ k, k < t → ∃ o, trace (e + k) = some o ∧ isPending o) →
    ∀ ov, trace (e + t) = some ov → ov.status = Status.filled →
    waitGo trace e fuel = some ov := by
  induction t with
  | zero =>
    intro trace e fuel hf hp ov hov hst
    obtain ⟨f, rfl⟩ : ∃ f, fuel = f + 1 := ⟨fuel - 1, by omega⟩
    rw [show e + 0 = e from rfl] at hov
    rw [waitGo_succ, hov]
    simp [hst]
  | succ t ih =>
    intro trace e fuel hf hp ov hov hst
    obtain ⟨f, rfl⟩ : ∃ f, fuel = f + 1 := ⟨fuel - 1, by omega⟩
    obtain ⟨o0, ho0, hpend⟩ := hp 0 (by omega)
    rw [show e + 0 = e from rfl] at ho0
    rw [waitGo_succ_pending trace e f o0 ho0 hpend]
    apply ih trace (e + 1) f (by omega)
    · intro k hk
      obtain ⟨o, ho, hpo⟩ := hp (k + 1) (by omega)
      refine ⟨o, ?_, hpo⟩
      rw [show e + 1 + k = e + (k + 1) by omega]
      exact ho
    · rw [show e + 1 + t = e + (t + 1) by omega]
      exact hov
    · exact hst

theorem waitGo_first_terminal (t : ℕ) : ∀ (trace : ℕ → Option OrderView)
    (e fuel : ℕ), t < fuel →
    (∀ k, k < t → ∃ o, trace (e + k) = some o ∧ isPending o) →
    ∀ ov, trace (e + t) = some ov → isTerminal ov.status = true →
    waitGo trace e fuel = none := by
  induction t with
  | zero =>
    intro trace e fuel hf hp ov hov hst
    obtain ⟨f, rfl⟩ : ∃ f, fuel = f + 1 := ⟨fuel - 1, by omega⟩
    rw [show e + 0 = e from rfl] at hov
    have hnf : ov.status ≠ Status.filled := by
      intro hc
      rw [hc] at hst
      exact absurd hst (by norm_num [isTerminal])
    rw [waitGo_succ, hov]
    simp [hnf, hst]
  | succ t ih =>
    intro trace e fuel hf hp ov hov hst
    obtain ⟨f, rfl⟩ : ∃ f, fuel = f + 1 := ⟨fuel - 1, by omega⟩
    obtain ⟨o0, ho0, hpend⟩ := hp 0 (by omega)
    rw [show e + 0 = e from rfl] at ho0
    rw [waitGo_succ_pending trace e f o0 ho0 hpend]
    apply ih trace (e + 1) f (by omega)
    · intro k hk
      obtain ⟨o, ho, hpo⟩ := hp (k + 1) (by omega)
      refine ⟨o, ?_, hpo⟩
      rw [show e + 1 + k = e + (k + 1) by omega]
      exact ho
    · rw [show e + 1 + t = e + (t + 1) by omega]
      exact hov
    · exact hst

theorem waitGo_all_pending (fuel : ℕ) : ∀ (trace : ℕ → Option OrderView)
    (e : ℕ), (∀ k, k < fuel → ∃ o, trace (e + k) = some o ∧ isPending o) →
    waitGo trace e fuel = none := by
  induction fuel with
  | zero =>
    intro trace e hp
    rfl
  | succ f ih =>
    intro trace e hp
    obtain ⟨o0, ho0, hpend⟩ := hp 0 (by omega)
    rw [show e + 0 = e from rfl] at ho0
    rw [waitGo_succ_pending trace e f o0 ho0 hpend]
    apply ih
    intro k hk
    obtain ⟨o, ho, hpo⟩ := hp (k + 1) (by omega)
    refine ⟨o, ?_, hpo⟩
    rw [show e + 1 + k = e + (k + 1) by omega]
    exact ho

/-- C3: the order-fill wait.  (i) If the polled status turns `filled` at
second `t` before the timeout, after only pending statuses, the result
is that filled order, carrying its average fill price.  (ii) If it turns
terminal (canceled/expired/rejected) first, the result is None.
(iii) If every poll before the timeout is still pending, the result is
None.  (iv) Whenever the wait yields None, `place_trailing_stop_order`
returns the null result, submits no trailing-stop order, and leaves the
tracked-positions map unchanged. -/
theorem c3_order_fill_wait :
    (∀ (trace : ℕ → Option OrderView) (timeout t : ℕ) (ov : OrderView),
      t < timeout →
      (∀ k, k < t → ∃ o, trace k = some o ∧ isPending o) →
      trace t = some ov → ov.status = Status.filled →
      wait_for_order_fill trace timeout = some ov) ∧
    (∀ (trace : ℕ → Option OrderView) (timeout t : ℕ) (ov : OrderView),
      t < timeout →
      (∀ k, k < t → ∃ o, trace k = some o ∧ isPending o) →
      trace t = some ov → isTerminal ov.status = true →
      wait_for_order_fill trace timeout = none) ∧
    (∀ (trace : ℕ → Option OrderView) (timeout : ℕ),
      (∀ k, k < timeout → ∃ o, trace k = some o ∧ isPending o) →
      wait_for_order_fill trace timeout = none) ∧
    (∀ (w : World) (trail : ℚ) (timeout : ℕ) (ps : String → Option PosRec)
      (sym : String), wait_for_order_fill w.trace timeout = none →
      (place_trailing_stop_order w trail timeout ps sym).1 = none ∧
      (∀ o ∈ (place_trailing_stop_order w trail timeout ps sym).2.1,
        o.isTrailingStop = false) ∧
      (place_trailing_stop_order w trail timeout ps sym).2.2 = ps) := by
  refine ⟨?_, ?_, ?_, ?_⟩
  · intro trace timeout t ov ht hp hov hst
    unfold wait_for_order_fill
    apply waitGo_first_filled t trace 0 timeout ht
    · intro k hk
      obtain ⟨o, ho, hpo⟩ := hp k hk
      exact ⟨o, by rw [Nat.zero_add]; exact ho, hpo⟩
    · rw [Nat.zero_add]
      exact hov
    · exact hst
  · intro trace timeout t ov ht hp hov hst
    unfold wait_for_order_fill
    apply waitGo_first_terminal t trace 0 timeout ht
    · intro k hk
      obtain ⟨o, ho, hpo⟩ := hp k hk
      exact ⟨o, by rw [Nat.zero_add]; exact ho, hpo⟩
    · rw [Nat.zero_add]
      exact hov
    · exact hst
  · intro trace timeout hp
    unfold wait_for_order_fill
    apply waitGo_all_pending timeout trace 0
    intro k hk
    obtain ⟨o, ho, hpo⟩ := hp k hk
    exact ⟨o, by rw [Nat.zero_add]; exact ho, hpo⟩
  · intro w trail timeout ps sym hnone
    by_cases hq : 0 < w.positionQty
    · simp [place_trailing_stop_order, hq]
    · cases hw : w.price with
      | none => simp [place_trailing_stop_order, hq, hw]
      | some p =>
        by_cases hp0 : p = 0
        · simp [place_trailing_stop_order, hq, hw, hp0]
        · simp [place_trailing_stop_order, hq, hw, hp0, hnone]

/-- Witness for C3: the fill arriving at second 2 of a 60-second wait is
returned with its 120.50 average price, and a wait that times out leaves
the null result and an unchanged positions map. -/
theorem c3_order_fill_wait_witness :
    wait_for_order_fill traceFill 60 = some ⟨Status.filled, some (241 / 2)⟩ ∧
    (place_trailing_stop_order worldPend (5 / 100) 60 (fun _ => none)
      "TSLA").1 = none ∧
    (place_trailing_stop_order worldPend (5 / 100) 60 (fun _ => none)
      "TSLA").2.2 = (fun _ => none) := by
  have hpendTrace : ∀ k, k < 60 →
      ∃ o, worldPend.trace k = some o ∧ isPending o := by
    intro k hk
    exact ⟨⟨Status.other, none⟩, rfl, by simp [isPending, isTerminal]⟩
  have hnone : wait_for_order_fill worldPend.trace 60 = none :=
    c3_order_fill_wait.2.2.1 worldPend.trace 60 hpendTrace
  have h4 := c3_order_fill_wait.2.2.2 worldPend (5 / 100) 60 (fun _ => none)
    "TSLA" hnone
  refine ⟨?_, h4.1, h4.2.2⟩
  apply c3_order_fill_wait.1 traceFill 60 2 ⟨Status.filled, some (241 / 2)⟩
    (by norm_num)
  · intro k hk
    have hne : ¬ (k = 2) := by omega
    exact ⟨⟨Status.other, none⟩, by simp [traceFill, hne],
      by simp [isPending, isTerminal]⟩
  · simp [traceFill]
  · rfl

/-! ## C8: signal evaluator on insufficient data -/

theorem filter_range_le_length (m n : ℕ) :
    (((List.range n).filter (fun i => decide (m ≤ i))).length) = n - m := by
  induction n with
  | zero => simp
  | succ n ih =>
    rw [List.range_succ, List.filter_append, List.length_append, ih]
    have hf : (List.filter (fun i => decide (m ≤ i)) [n]).length
        = if m ≤ n then 1 else 0 := by
      by_cases h : m ≤ n <;> simp [h]
    rw [hf]
    by_cases h : m ≤ n
    · rw [if_pos h]
      omega
    · rw [if_neg h]
      omega

/-- The RSI column is defined at exactly the last `length - 13` rows. -/
theorem definedRsiRows_eq (c : List ℚ) : definedRsiRows c = c.length - 13 := by
  unfold definedRsiRows
  rw [List.filter_congr (q := fun i => decide (13 ≤ i))]
  · exact filter_range_le_length 13 c.length
  · intro i hi
    simp only [List.mem_range] at hi
    by_cases h : 13 ≤ i
    · simp [rsiVal, h, hi]
    · simp [rsiVal, h]

/-- C8 (amended): the Signal Evaluator returns false — never an error —
for a missing frame, for any input of fewer than `period = 14` bars, and
for every input with fewer than 2 rows of well-defined RSI values (the
two rows whose RSI the decision actually reads; the RSI moving average
may be defined on fewer rows without forcing a false result). -/
theorem c8_signal_insufficient :
    (∀ (o : Option ℚ) (th : ℚ), check_entry_signal none o th = false) ∧
    (∀ (c : List ℚ) (o : Option ℚ) (th : ℚ), c.length < 14 →
      check_entry_signal (some c) o th = false) ∧
    (∀ (c : List ℚ) (o : Option ℚ) (th : ℚ), definedRsiRows c < 2 →
      check_entry_signal (some c) o th = false) := by
  refine ⟨?_, ?_, ?_⟩
  · intro o th
    rfl
  · intro c o th h
    simp [check_entry_signal, h]
  · intro c o th hr
    rw [definedRsiRows_eq] at hr
    by_cases h14 : c.length < 14
    · simp [check_entry_signal, h14]
    · have hlen : c.length = 14 := by omega
      cases o with
      | none => simp [check_entry_signal, h14]
      | some p =>
        have h12 : rsiVal c (c.length - 2) = none := by
          apply rsiVal_eq_none_of_lt13
          omega
        simp [check_entry_signal, h14, h12, gtO_none_right]

theorem c8rsi13 : rsiVal c8closes 13 = some (1100 / 13) := by
  norm_num [rsiVal, c8closes, avgGain, avgLoss, avgLossEps, gainAt, lossAt,
    List.range_succ]

theorem c8rsi14 : rsiVal c8closes 14 = some (600 / 7) := by
  norm_num [rsiVal, c8closes, avgGain, avgLoss, avgLossEps, gainAt, lossAt,
    List.range_succ]

theorem c8rsi15 : rsiVal c8closes 15 = some (600 / 7) := by
  norm_num [rsiVal, c8closes, avgGain, avgLoss, avgLossEps, gainAt, lossAt,
    List.range_succ]

theorem c8rsi16 : rsiVal c8closes 16 = some (600 / 7) := by
  norm_num [rsiVal, c8closes, avgGain, avgLoss, avgLossEps, gainAt, lossAt,
    List.range_succ]

theorem c8rsi17 : rsiVal c8closes 17 = some (600 / 7) := by
  norm_num [rsiVal, c8closes, avgGain, avgLoss, avgLossEps, gainAt, lossAt,
    List.range_succ]

theorem c8rsi18 : rsiVal c8closes 18 = some (600 / 7) := by
  norm_num [rsiVal, c8closes, avgGain, avgLoss, avgLossEps, gainAt, lossAt,
    List.range_succ]

theorem c8rsi19 : rsiVal c8closes 19 = some (600 / 7) := by
  norm_num [rsiVal, c8closes, avgGain, avgLoss, avgLossEps, gainAt, lossAt,
    List.range_succ]

theorem c8rsi20 : rsiVal c8closes 20 = some (600 / 7) := by
  norm_num [rsiVal, c8closes, avgGain, avgLoss, avgLossEps, gainAt, lossAt,
    List.range_succ]

theorem c8rsi21 : rsiVal c8closes 21 = some (600 / 7) := by
  norm_num [rsiVal, c8closes, avgGain, avgLoss, avgLossEps, gainAt, lossAt,
    List.range_succ]

theorem c8rsi22 : rsiVal c8closes 22 = some (650 / 7) := by
  norm_num [rsiVal, c8closes, avgGain, avgLoss, avgLossEps, gainAt, lossAt,
    List.range_succ]

theorem c8ma22 : rsiMaVal c8closes 22 = some (7855 / 91) := by
  have h : c8closes.length = 23 := by norm_num [c8closes]
  norm_num [rsiMaVal, h, List.range_succ, c8rsi13, c8rsi14, c8rsi15, c8rsi16,
    c8rsi17, c8rsi18, c8rsi19, c8rsi20, c8rsi21, c8rsi22]

theorem c8roc22 : rocVal c8closes 22 = some (500 / 113) := by
  norm_num [rocVal, c8closes]

/-- Counterexample for C8 as stated: `c8closes` has exactly one row on
which all three indicator values are well-defined (fewer than 2), yet
`check_entry_signal` returns true on it, because the decision reads the
RSI moving average only on the final row and the previous row only needs
a defined RSI. -/
theorem c8_signal_counterexample :
    check_entry_signal (some c8closes) (some 1) 50 = true ∧
    definedIndicatorRows c8closes = 1 := by
  constructor
  · have h : c8closes.length = 23 := by norm_num [c8closes]
    norm_num [check_entry_signal, h, gtO, c8rsi21, c8rsi22, c8ma22, c8roc22]
  · decide

/-- Witness for C8 (amended): no frame, a 2-bar frame, and the 14-bar
flat frame (only one defined RSI row) all yield false. -/
theorem c8_signal_insufficient_witness :
    check_entry_signal none none 50 = false ∧
    check_entry_signal (some [1, 2]) (some 1) 50 = false ∧
    check_entry_signal (some c1flat) (some 1) 50 = false :=
  ⟨c8_signal_insufficient.1 none 50,
   c8_signal_insufficient.2.1 [1, 2] (some 1) 50 (by norm_num),
   c8_signal_insufficient.2.2 c1flat (some 1) 50 (by decide)⟩
